import Mathlib

/-!
Verification of the `jokes` Go package (JokeAPI client).

Shallow embedding conventions:
* Go `string`-kinded types (`Lang`, `Flag`, `Type`, `Category`) are `String`
  aliases; Go `int` is `Int`.
* Pointer-valued optional fields (`*IDRange`) are `Option IDRange`.
* Mutating setters (`func (s *T) Set/Add`) become pure functions returning the
  new value of the receiver together with an optional error string:
  `(newState, errorMessage?)`; `none` models a `nil` error and the receiver is
  the returned state.
* JSON values are the inductive `JVal`; the behaviour of `encoding/json`
  unmarshalling on the shapes this package uses is modelled by the `decode*`
  functions; `net/url` query/path encoding is modelled by `queryEscape`,
  `pathEscape`, `encodeQuery` and `GoURL.toString`.
* The Go source's `Type` identifier is rendered `JokeType` (Lean reserves
  `Type`); struct fields are rendered in lower case, with the source's `Type`
  field rendered `ty`.
-/

namespace Jokes

/-- Str is a top-level alias for `String`, used in signatures declared inside
a namespace that also contains a `String` member (for example `Flags.Add`,
whose namespace holds `Flags.String`), where a bare `String` would resolve to
that member. -/
abbrev Str := String

/-- Lang models the Go `type Lang string`. -/
abbrev Lang := String

def Cs : Lang := "cs"
def De : Lang := "de"
def En : Lang := "en"
def Es : Lang := "es"
def Fr : Lang := "fr"
def Pt : Lang := "pt"

/-- goQuote models Go `fmt` verb `%q` on the printable characters that matter
here: the string is wrapped in double quotes, with `"` and backslash
backslash-escaped. -/
def goQuoteChar (c : Char) : List Char :=
  if c = '"' then ['\\', '"']
  else if c = '\\' then ['\\', '\\']
  else [c]

def goQuote (s : String) : String :=
  ⟨'"' :: (s.data.map goQuoteChar).flatten ++ ['"']⟩

/-- Lang.Set models `func (s *Lang) Set(l string) error` (src/joke.go:129). -/
def Lang.Set (s : Lang) (l : String) : Lang × Option String :=
  if l = Cs ∨ l = De ∨ l = En ∨ l = Es ∨ l = Fr ∨ l = Pt then
    (l, none)
  else
    (s, some ("invalid lang code: " ++ goQuote l))

/-- Flag models the Go `type Flag string`. -/
abbrev Flag := String

/-- Flags models the Go `type Flags []Flag`. -/
abbrev Flags := List Flag

def Nsfw : Flag := "nsfw"
def Religious : Flag := "religious"
def Political : Flag := "political"
def Racist : Flag := "racist"
def Sexist : Flag := "sexist"
def Explicit : Flag := "explicit"

/-- joinLoop models the `strings.Builder` loop shared by `Flags.String` and
`Categories.String` (src/joke.go:158, src/joke.go:251): element `i` is
written, followed by a comma whenever `i < c-1`, where `c` is the total
length. `i` is the index of the head of the remaining list `s`. -/
def joinLoop (s : List String) (i : Nat) (c : Nat) : String :=
  match s with
  | [] => ""
  | f :: rest => f ++ (if i < c - 1 then "," else "") ++ joinLoop rest (i + 1) c

/-- Flags.String models `func (s Flags) String() string` (src/joke.go:158). -/
def Flags.String (s : Flags) : String :=
  joinLoop s 0 s.length

/-- Flags.Add models `func (s *Flags) Add(f string) error` (src/joke.go:176). -/
def Flags.Add (s : Flags) (f : Str) : Flags × Option Str :=
  if f = Nsfw ∨ f = Religious ∨ f = Political ∨ f = Racist ∨ f = Sexist ∨
      f = Explicit then
    (s ++ [f], none)
  else
    (s, some ("invalid flag: " ++ goQuote f))

/-- JokeType renders the Go `type Type string` (`Type` is reserved in Lean). -/
abbrev JokeType := String

def Single : JokeType := "single"
def Twopart : JokeType := "twopart"

/-- JokeType.Set models `func (s *Type) Set(t string) error` (src/joke.go:203). -/
def JokeType.Set (s : JokeType) (t : String) : JokeType × Option String :=
  if t = Single ∨ t = Twopart then
    (t, none)
  else
    (s, some ("invalid type: " ++ goQuote t))

/-- IDRange models the Go struct `IDRange` (src/joke.go:222). -/
structure IDRange where
  lower : Int
  upper : Int
deriving Repr, DecidableEq

/-- IDRange.String models `func (r IDRange) String() string` (src/joke.go:228):
`fmt.Sprintf` with format `%[1]d` when `Upper <= 0`, else `%[1]d-%[2]d`. -/
def IDRange.String (r : IDRange) : String :=
  if r.upper > 0 then
    toString r.lower ++ "-" ++ toString r.upper
  else
    toString r.lower

/-- Category models the Go `type Category string`. -/
abbrev Category := String

/-- Categories models the Go `type Categories []Category`. -/
abbrev Categories := List Category

def Any : Category := "Any"
def Christmas : Category := "Christmas"
def Dark : Category := "Dark"
def Misc : Category := "Misc"
def Programming : Category := "Programming"
def Pun : Category := "Pun"
def Spooky : Category := "Spooky"

/-- Categories.String models `func (s Categories) String() string`
(src/joke.go:251), the same builder loop as `Flags.String`. -/
def Categories.String (s : Categories) : String :=
  joinLoop s 0 s.length

/-- Categories.Add models `func (s *Categories) Add(c string) error`
(src/joke.go:269). -/
def Categories.Add (s : Categories) (c : Str) : Categories × Option Str :=
  if c = Any ∨ c = Misc ∨ c = Programming ∨ c = Dark ∨ c = Pun ∨ c = Spooky ∨
      c = Christmas then
    (s ++ [c], none)
  else
    (s, some ("invalid category: " ++ goQuote c))

def KeyAmount : String := "amount"
def KeyBlacklist : String := "blacklistFlags"
def KeyContains : String := "contains"
def KeyIDRange : String := "idRange"
def KeyLang : String := "lang"
def KeySafe : String := "safe-mode"
def KeyType : String := "type"

/-- Request models the Go struct `Request` (src/joke.go:20); the source's
`Type` field is rendered `ty`. -/
structure Request where
  amount : Int
  blacklist : Flags
  category : Categories
  contains : String
  id : Option IDRange
  lang : Lang
  safe : Bool
  ty : JokeType
deriving Repr, DecidableEq

/-- Request.Query models `func (j Request) Query() url.Values`
(src/joke.go:32). A `url.Values` built by distinct `Set` calls is modelled as
the association list of the key/value pairs actually set, in program order. -/
def Request.Query (j : Request) : List (String × String) :=
  (if j.amount > 0 then [(KeyAmount, toString j.amount)] else []) ++
  (if 0 < j.blacklist.length then [(KeyBlacklist, Flags.String j.blacklist)] else []) ++
  (if j.contains ≠ "" then [(KeyContains, j.contains)] else []) ++
  (match j.id with
   | some r => [(KeyIDRange, IDRange.String r)]
   | none => []) ++
  (if j.lang ≠ "" then [(KeyLang, j.lang)] else []) ++
  (if j.safe then [(KeySafe, "")] else []) ++
  (if j.ty ≠ "" then [(KeyType, j.ty)] else [])

/-- emptyRequest is `Request{}` : the Go zero value, no fields set. -/
def emptyRequest : Request :=
  { amount := 0, blacklist := [], category := [], contains := "", id := none,
    lang := "", safe := false, ty := "" }

/-- langVocab is the fixed vocabulary accepted by `Lang.Set`. -/
def langVocab : List String := [Cs, De, En, Es, Fr, Pt]

/-- flagVocab is the fixed vocabulary accepted by `Flags.Add`. -/
def flagVocab : List String :=
  [Nsfw, Religious, Political, Racist, Sexist, Explicit]

/-- typeVocab is the fixed vocabulary accepted by `JokeType.Set`. -/
def typeVocab : List String := [Single, Twopart]

/-- catVocab is the fixed vocabulary accepted by `Categories.Add`. -/
def catVocab : List String :=
  [Any, Misc, Programming, Dark, Pun, Spooky, Christmas]

/-- JVal is a parsed JSON value. `ParseResponse` takes raw bytes in Go; its
first `json.Unmarshal` both parses the JSON text and builds the generic map,
so the embedding takes the already-parsed value and models only the second
half. JSON numbers are restricted to integers, the only numeric shape this
package decodes. An object is the list of its key/value pairs in textual
order (Go maps keep the last value of a duplicated key; `lookupLast`
implements that reading). -/
inductive JVal where
  | null
  | bool (b : Bool)
  | num (n : Int)
  | str (s : String)
  | arr (elems : List JVal)
  | obj (fields : List (String × JVal))
deriving Repr

/-- DecodeError models the error produced by `encoding/json` when a JSON
value does not fit the target Go type (`json.UnmarshalTypeError`), recording
the Go type that was expected. -/
inductive DecodeError where
  | typeMismatch (expected : String)
deriving Repr, DecidableEq

/-- Joke models the Go struct `Joke` (src/joke.go:302); the `Flags` field of
type `map[Flag]bool` is modelled as an association list, and the source's
`Type` field is rendered `ty`. -/
structure Joke where
  category : Category
  delivery : String
  flags : List (String × Bool)
  id : Int
  joke : String
  lang : Lang
  safe : Bool
  setup : String
  ty : JokeType
deriving Repr, DecidableEq

/-- zeroJoke is the Go zero value of `Joke`, the start state of `var joke
Joke` in `ParseResponse`. -/
def zeroJoke : Joke :=
  { category := "", delivery := "", flags := [], id := 0, joke := "",
    lang := "", safe := false, setup := "", ty := "" }

/-- Jokes models the Go struct `Jokes` (src/joke.go:323). -/
structure Jokes where
  jokes : List Joke
deriving Repr, DecidableEq

/-- zeroJokes is the Go zero value of `Jokes`. -/
def zeroJokes : Jokes := { jokes := [] }

/-- ErrorResponse models the Go struct `ErrorResponse` (src/joke.go:328). -/
structure ErrorResponse where
  cause : List String
  code : Int
  info : String
  internal : Bool
  message : String
  time : Int
deriving Repr, DecidableEq

/-- zeroErrorResponse is the Go zero value of `ErrorResponse`. -/
def zeroErrorResponse : ErrorResponse :=
  { cause := [], code := 0, info := "", internal := false, message := "",
    time := 0 }

/-- ErrorResponse.Error models `func (e ErrorResponse) Error() string`
(src/joke.go:337): `fmt.Sprintf` with format `%s: %s` on `Message`, `Info`. -/
def ErrorResponse.Error (e : ErrorResponse) : String :=
  e.message ++ ": " ++ e.info

/-- RespError models the three kinds of non-nil `error` that `ParseResponse`
can return: a JSON decode failure, the `errors.New` value for a payload with
no `error` key (message `response has no "error" property`), and a remote
`ErrorResponse` returned as the error value. -/
inductive RespError where
  | decode (d : DecodeError)
  | missingErrorProp
  | api (er : ErrorResponse)
deriving Repr, DecidableEq

/-- decodeBool models `json.Unmarshal` into a Go `bool` holding `dflt`:
JSON `null` leaves the value unchanged. -/
def decodeBool (v : JVal) (dflt : Bool) : Except DecodeError Bool :=
  match v with
  | .null => .ok dflt
  | .bool b => .ok b
  | _ => .error (.typeMismatch "bool")

/-- decodeInt models `json.Unmarshal` into a Go `int` holding `dflt`. -/
def decodeInt (v : JVal) (dflt : Int) : Except DecodeError Int :=
  match v with
  | .null => .ok dflt
  | .num n => .ok n
  | _ => .error (.typeMismatch "int")

/-- decodeString models `json.Unmarshal` into a Go `string`-kinded value
holding `dflt`. -/
def decodeString (v : JVal) (dflt : String) : Except DecodeError String :=
  match v with
  | .null => .ok dflt
  | .str s => .ok s
  | _ => .error (.typeMismatch "string")

/-- decodeStringList models `json.Unmarshal` into a `[]string`. -/
def decodeStringList (v : JVal) (dflt : List String) :
    Except DecodeError (List String) :=
  match v with
  | .null => .ok dflt
  | .arr es => es.mapM (fun e => decodeString e "")
  | _ => .error (.typeMismatch "[]string")

/-- setFlag models a Go map store `m[k] = b` on the association-list model:
an existing entry for `k` is overwritten in place, a new key is appended. -/
def setFlag (m : List (String × Bool)) (k : String) (b : Bool) :
    List (String × Bool) :=
  match m with
  | [] => [(k, b)]
  | (k', b') :: t => if k' = k then (k, b) :: t else (k', b') :: setFlag t k b

/-- decodeFlags models `json.Unmarshal` into a `map[Flag]bool`. -/
def decodeFlags (v : JVal) (dflt : List (String × Bool)) :
    Except DecodeError (List (String × Bool)) :=
  match v with
  | .null => .ok dflt
  | .obj kvs =>
      kvs.foldlM (fun m kv => (decodeBool kv.2 false).map (setFlag m kv.1)) dflt
  | _ => .error (.typeMismatch "map")

/-- decodeJokeFields models the field loop of `json.Unmarshal` into a `Joke`:
the object's pairs are consumed in textual order, each known key (by its
`json:"..."` tag) decodes into its field, unknown keys are ignored, and the
first failing field aborts with its error (Go records the first error and
returns it). -/
def decodeJokeFields : List (String × JVal) → Joke → Except DecodeError Joke
  | [], j => .ok j
  | (k, v) :: rest, j =>
    if k = "category" then do
      let x ← decodeString v j.category
      decodeJokeFields rest { j with category := x }
    else if k = "delivery" then do
      let x ← decodeString v j.delivery
      decodeJokeFields rest { j with delivery := x }
    else if k = "flags" then do
      let x ← decodeFlags v j.flags
      decodeJokeFields rest { j with flags := x }
    else if k = "id" then do
      let x ← decodeInt v j.id
      decodeJokeFields rest { j with id := x }
    else if k = "joke" then do
      let x ← decodeString v j.joke
      decodeJokeFields rest { j with joke := x }
    else if k = "lang" then do
      let x ← decodeString v j.lang
      decodeJokeFields rest { j with lang := x }
    else if k = "safe" then do
      let x ← decodeBool v j.safe
      decodeJokeFields rest { j with safe := x }
    else if k = "setup" then do
      let x ← decodeString v j.setup
      decodeJokeFields rest { j with setup := x }
    else if k = "type" then do
      let x ← decodeString v j.ty
      decodeJokeFields rest { j with ty := x }
    else
      decodeJokeFields rest j

/-- decodeJoke models `json.Unmarshal` into a `Joke` holding `dflt`. -/
def decodeJoke (dflt : Joke) (v : JVal) : Except DecodeError Joke :=
  match v with
  | .null => .ok dflt
  | .obj kvs => decodeJokeFields kvs dflt
  | _ => .error (.typeMismatch "Joke")

/-- decodeJokeList models `json.Unmarshal` into a `[]Joke`: each array
element decodes into a fresh zero `Joke`. -/
def decodeJokeList (v : JVal) (dflt : List Joke) :
    Except DecodeError (List Joke) :=
  match v with
  | .null => .ok dflt
  | .arr es => es.mapM (decodeJoke zeroJoke)
  | _ => .error (.typeMismatch "[]Joke")

/-- decodeJokesFields is the field loop of `json.Unmarshal` into the wrapper
struct `Jokes`, whose only tagged field is `jokes`. -/
def decodeJokesFields : List (String × JVal) → Jokes → Except DecodeError Jokes
  | [], w => .ok w
  | (k, v) :: rest, w =>
    if k = "jokes" then do
      let x ← decodeJokeList v w.jokes
      decodeJokesFields rest { w with jokes := x }
    else
      decodeJokesFields rest w

/-- decodeJokes models `json.Unmarshal` into a `Jokes` holding `dflt`. -/
def decodeJokes (dflt : Jokes) (v : JVal) : Except DecodeError Jokes :=
  match v with
  | .null => .ok dflt
  | .obj kvs => decodeJokesFields kvs dflt
  | _ => .error (.typeMismatch "Jokes")

/-- decodeErrorResponseFields is the field loop of `json.Unmarshal` into an
`ErrorResponse`, keyed by the struct's `json:"..."` tags. -/
def decodeErrorResponseFields :
    List (String × JVal) → ErrorResponse → Except DecodeError ErrorResponse
  | [], e => .ok e
  | (k, v) :: rest, e =>
    if k = "causedBy" then do
      let x ← decodeStringList v e.cause
      decodeErrorResponseFields rest { e with cause := x }
    else if k = "code" then do
      let x ← decodeInt v e.code
      decodeErrorResponseFields rest { e with code := x }
    else if k = "additionalInfo" then do
      let x ← decodeString v e.info
      decodeErrorResponseFields rest { e with info := x }
    else if k = "internalError" then do
      let x ← decodeBool v e.internal
      decodeErrorResponseFields rest { e with internal := x }
    else if k = "message" then do
      let x ← decodeString v e.message
      decodeErrorResponseFields rest { e with message := x }
    else if k = "timestamp" then do
      let x ← decodeInt v e.time
      decodeErrorResponseFields rest { e with time := x }
    else
      decodeErrorResponseFields rest e

/-- decodeErrorResponse models `json.Unmarshal` into an `ErrorResponse`. -/
def decodeErrorResponse (dflt : ErrorResponse) (v : JVal) :
    Except DecodeError ErrorResponse :=
  match v with
  | .null => .ok dflt
  | .obj kvs => decodeErrorResponseFields kvs dflt
  | _ => .error (.typeMismatch "ErrorResponse")

/-- lookupLast is a Go map read `raw[k]` on the object's pair list: the
last pair with key `k` wins (later duplicate JSON keys overwrite earlier
ones when `json.Unmarshal` fills a map). -/
def lookupLast (kvs : List (String × JVal)) (k : String) : Option JVal :=
  match kvs with
  | [] => none
  | (k', v) :: t =>
    match lookupLast t k with
    | some w => some w
    | none => if k' = k then some v else none

/-- hasKey is the Go comma-ok map membership test `_, has := raw[k]`. -/
def hasKey (kvs : List (String × JVal)) (k : String) : Bool :=
  kvs.any (fun kv => kv.1 == k)

/-- toRawMap models the first `json.Unmarshal` of `ParseResponse`, into a
`map[string]json.RawMessage`: an object yields its pairs, `null` leaves the
nil map, anything else is a type error. -/
def toRawMap : JVal → Except DecodeError (List (String × JVal))
  | .null => .ok []
  | .obj kvs => .ok kvs
  | _ => .error (.typeMismatch "map")

/-- ParseResponse models `func ParseResponse(jsn []byte) ([]Joke, error)`
(src/joke.go:343) on the parsed JSON value, returning the pair
`(j, e)` of the joke slice (nil modelled as `[]`) and the optional error. -/
def ParseResponse (v : JVal) : List Joke × Option RespError :=
  match toRawMap v with
  | .error d => ([], some (.decode d))
  | .ok raw =>
    match lookupLast raw "error" with
    | none => ([], some .missingErrorProp)
    | some ev =>
      match decodeBool ev false with
      | .error d => ([], some (.decode d))
      | .ok isErr =>
        if isErr then
          match decodeErrorResponse zeroErrorResponse v with
          | .error d => ([], some (.decode d))
          | .ok er => ([], some (.api er))
        else if hasKey raw "amount" then
          match decodeJokes zeroJokes v with
          | .error d => ([], some (.decode d))
          | .ok w => (w.jokes, none)
        else
          match decodeJoke zeroJoke v with
          | .error d => ([], some (.decode d))
          | .ok jk => ([jk], none)

/-- isUnreservedChar holds for the characters `net/url` never escapes in any
mode: ASCII alphanumerics and `-_.~`. -/
def isUnreservedChar (c : Char) : Bool :=
  c.isAlphanum || c = '-' || c = '_' || c = '.' || c = '~'

/-- utf8Bytes is the UTF-8 encoding of a character, as byte values; Go
percent-escapes a multi-byte character byte by byte. -/
def utf8Bytes (c : Char) : List Nat :=
  let n := c.toNat
  if n < 128 then [n]
  else if n < 2048 then [192 + n / 64, 128 + n % 64]
  else if n < 65536 then [224 + n / 4096, 128 + (n / 64) % 64, 128 + n % 64]
  else [240 + n / 262144, 128 + (n / 4096) % 64, 128 + (n / 64) % 64,
        128 + n % 64]

/-- hexDigitUpper is the upper-case hexadecimal digit for `n < 16`, matching
the digit table `net/url` uses for percent-escapes. -/
def hexDigitUpper (n : Nat) : Char :=
  if n < 10 then Char.ofNat (48 + n) else Char.ofNat (55 + n)

/-- percentEncChar is the percent-escape `%XX...` of one character. -/
def percentEncChar (c : Char) : List Char :=
  ((utf8Bytes c).map (fun b => ['%', hexDigitUpper (b / 16), hexDigitUpper (b % 16)])).flatten

/-- shouldEscapePath models `net/url`'s `shouldEscape(c, encodePath)`:
besides the unreserved characters, the sub-delimiters other than `?` stay
literal in a path. -/
def shouldEscapePath (c : Char) : Bool :=
  !(isUnreservedChar c || c = '$' || c = '&' || c = '+' || c = ',' ||
    c = '/' || c = ':' || c = ';' || c = '=' || c = '@')

/-- escapeList rewrites a character list, percent-escaping the characters
selected by `p`. -/
def escapeList (p : Char → Bool) : List Char → List Char
  | [] => []
  | c :: cs => (if p c then percentEncChar c else [c]) ++ escapeList p cs

/-- escapeStr lifts `escapeList` to strings. -/
def escapeStr (p : Char → Bool) (s : String) : String :=
  ⟨escapeList p s.data⟩

/-- pathEscape models the escaping `url.URL.String` applies to the path
(`u.EscapedPath()` with an empty `RawPath`). -/
def pathEscape (s : String) : String :=
  escapeStr shouldEscapePath s

/-- queryEscapeList models `url.QueryEscape` character by character: the
unreserved characters stay, a space becomes `+`, everything else is
percent-escaped. -/
def queryEscapeList : List Char → List Char
  | [] => []
  | c :: cs =>
    (if isUnreservedChar c then [c]
     else if c = ' ' then ['+']
     else percentEncChar c) ++ queryEscapeList cs

/-- queryEscape lifts `queryEscapeList` to strings. -/
def queryEscape (s : String) : String :=
  ⟨queryEscapeList s.data⟩

/-- charListLt is lexicographic order on character lists by code point;
on UTF-8 encoded strings this coincides with Go's byte-wise `<`. -/
def charListLt : List Char → List Char → Bool
  | [], [] => false
  | [], _ :: _ => true
  | _ :: _, [] => false
  | c :: cs, d :: ds =>
    if c.toNat < d.toNat then true
    else if d.toNat < c.toNat then false
    else charListLt cs ds

/-- strLt is Go's `<` on strings (byte order), via `charListLt`. -/
def strLt (a b : String) : Bool :=
  charListLt a.data b.data

/-- insertPair is one step of sorting the query keys, as `url.Values.Encode`
does with `sort.Strings` (ascending byte order). -/
def insertPair (p : String × String) :
    List (String × String) → List (String × String)
  | [] => [p]
  | q :: t => if strLt q.1 p.1 then q :: insertPair p t else p :: q :: t

/-- sortPairs sorts the key/value pairs by key, ascending. -/
def sortPairs : List (String × String) → List (String × String)
  | [] => []
  | p :: t => insertPair p (sortPairs t)

/-- encodeQuery models `url.Values.Encode` for single-valued keys: keys are
sorted, each pair is rendered `QueryEscape(k)=QueryEscape(v)`, and the pairs
are joined with `&`. -/
def encodeQuery (q : List (String × String)) : String :=
  String.intercalate "&"
    ((sortPairs q).map (fun kv => queryEscape kv.1 ++ "=" ++ queryEscape kv.2))

/-- GoURL models the fields of `net/url.URL` this package sets. -/
structure GoURL where
  scheme : String
  host : String
  path : String
  rawQuery : String
deriving Repr, DecidableEq

/-- BaseURL models the package variable `BaseURL` (src/joke.go:14). -/
def BaseURL : GoURL :=
  { scheme := "https", host := "v2.jokeapi.dev", path := "", rawQuery := "" }

/-- pathNeedsSlash is `url.URL.String`'s test `path != "" && path[0] != '/'`
(the first byte of a nonempty path is `'/'` exactly when its first character
is). -/
def pathNeedsSlash (p : String) : Bool :=
  match p.data with
  | [] => false
  | c :: _ => c ≠ '/'

/-- GoURL.String models `url.URL.String()` for a URL with a scheme and host
and no user, opaque part, fragment or force-query flag: scheme, `://`, host,
the escaped path (with a `/` inserted when the path does not start with
one), then `?` and the raw query when nonempty. -/
def GoURL.String (u : GoURL) : Str :=
  u.scheme ++ "://" ++ u.host ++
  (if u.host ≠ "" ∧ pathNeedsSlash u.path then "/" else "") ++
  pathEscape u.path ++
  (if u.rawQuery ≠ "" then "?" ++ u.rawQuery else "")

/-- Request.URL models `func (j Request) URL() string` (src/joke.go:68). -/
def Request.URL (j : Request) : Str :=
  let cat := if j.category.length = 0 then [Any] else j.category
  GoURL.String
    { BaseURL with
      path := "joke/" ++ Categories.String cat,
      rawQuery := encodeQuery (Request.Query j) }

/-! ## Helper lemmas -/

theorem intercalate_go_append (sep a : String) :
    ∀ (l : List String) (b : String),
      String.intercalate.go (a ++ b) sep l = a ++ String.intercalate.go b sep l
  | [], b => rfl
  | c :: cs, b => by
    show String.intercalate.go (a ++ b ++ sep ++ c) sep cs
        = a ++ String.intercalate.go (b ++ sep ++ c) sep cs
    rw [String.append_assoc (a ++ b) sep c, String.append_assoc a b (sep ++ c),
      String.append_assoc b sep c]
    exact intercalate_go_append sep a cs (b ++ (sep ++ c))

theorem intercalate_cons₂ (sep x y : String) (t : List String) :
    String.intercalate sep (x :: y :: t)
      = x ++ sep ++ String.intercalate sep (y :: t) := by
  show String.intercalate.go x sep (y :: t) = x ++ sep ++ String.intercalate.go y sep t
  show String.intercalate.go (x ++ sep ++ y) sep t = x ++ sep ++ String.intercalate.go y sep t
  rw [String.append_assoc x sep y, intercalate_go_append sep x t (sep ++ y),
    intercalate_go_append sep sep t y,
    ← String.append_assoc x sep (String.intercalate.go y sep t)]

theorem append_empty_twice (f : String) : f ++ "" ++ "" = f := by
  apply String.ext
  simp

/-- joinLoop, started at index `i` with total count `i + s.length`, is the
comma-join of `s`. -/
theorem joinLoop_spec : ∀ (s : List Str) (i : Nat),
    joinLoop s i (i + s.length) = String.intercalate "," s
  | [], _ => rfl
  | [f], i => by
    show f ++ (if i < i + 1 - 1 then "," else "") ++ joinLoop [] (i + 1) (i + 1) = _
    rw [if_neg (by omega)]
    show f ++ "" ++ "" = String.intercalate "," [f]
    rw [append_empty_twice]
    rfl
  | f :: g :: t, i => by
    show f ++ (if i < i + (g :: t).length + 1 - 1 then "," else "")
        ++ joinLoop (g :: t) (i + 1) (i + (g :: t).length + 1) = _
    rw [if_pos (by simp), intercalate_cons₂]
    have : i + (g :: t).length + 1 = (i + 1) + (g :: t).length := by omega
    rw [this, joinLoop_spec (g :: t) (i + 1)]

/-- Flags.String is the comma-join of the flag tokens in order. -/
theorem flagsString_eq_intercalate (s : Flags) :
    Flags.String s = String.intercalate "," s := by
  have := joinLoop_spec s 0
  simpa [Flags.String] using this

/-- Categories.String is the comma-join of the category tokens in order. -/
theorem categoriesString_eq_intercalate (s : Categories) :
    Categories.String s = String.intercalate "," s := by
  have := joinLoop_spec s 0
  simpa [Categories.String] using this

/-! ## C8 -/

/-- C8: an IDRange within the spec's data model (upper bound ≥ 0) renders as
the decimal lower bound alone when the upper bound is 0, and as
`lower-upper` otherwise. -/
theorem c8_idrange_rendering (r : IDRange) (h : 0 ≤ r.upper) :
    (r.upper = 0 → IDRange.String r = toString r.lower) ∧
    (r.upper ≠ 0 →
      IDRange.String r = toString r.lower ++ "-" ++ toString r.upper) := by
  constructor
  · intro h0
    simp [IDRange.String, h0]
  · intro hne
    have hpos : r.upper > 0 := lt_of_le_of_ne h (Ne.symm hne)
    simp [IDRange.String, hpos]

/-- C8 witness: IDRange{1,0} renders "1", IDRange{2,32} renders "2-32". -/
theorem c8_idrange_rendering_witness :
    IDRange.String ⟨1, 0⟩ = "1" ∧ IDRange.String ⟨2, 32⟩ = "2-32" :=
  ⟨((c8_idrange_rendering ⟨1, 0⟩ (by decide)).1 rfl).trans (by decide),
   ((c8_idrange_rendering ⟨2, 32⟩ (by decide)).2 (by decide)).trans (by decide)⟩

/-! ## C4 -/

/-- C4: each validated setter accepts exactly its fixed vocabulary; on a
valid token it assigns (Lang/Type) or appends (Flags/Categories) the value
with no error, on any other string it leaves the prior state unchanged and
returns the error `invalid <field>: "<value>"`. -/
theorem c4_validated_setters (v : Str) (l : Lang) (fs : Flags)
    (cs : Categories) (t : JokeType) :
    (v ∈ langVocab → Lang.Set l v = (v, none)) ∧
    (v ∉ langVocab →
      Lang.Set l v = (l, some ("invalid lang code: " ++ goQuote v))) ∧
    (v ∈ flagVocab → Flags.Add fs v = (fs ++ [v], none)) ∧
    (v ∉ flagVocab →
      Flags.Add fs v = (fs, some ("invalid flag: " ++ goQuote v))) ∧
    (v ∈ catVocab → Categories.Add cs v = (cs ++ [v], none)) ∧
    (v ∉ catVocab →
      Categories.Add cs v = (cs, some ("invalid category: " ++ goQuote v))) ∧
    (v ∈ typeVocab → JokeType.Set t v = (v, none)) ∧
    (v ∉ typeVocab →
      JokeType.Set t v = (t, some ("invalid type: " ++ goQuote v))) := by
  refine ⟨fun h => ?_, fun h => ?_, fun h => ?_, fun h => ?_, fun h => ?_,
    fun h => ?_, fun h => ?_, fun h => ?_⟩
  · have hc : v = Cs ∨ v = De ∨ v = En ∨ v = Es ∨ v = Fr ∨ v = Pt := by
      simpa [langVocab] using h
    simp [Lang.Set, hc]
  · have hc : ¬(v = Cs ∨ v = De ∨ v = En ∨ v = Es ∨ v = Fr ∨ v = Pt) := by
      simpa [langVocab] using h
    simp [Lang.Set, hc]
  · have hc : v = Nsfw ∨ v = Religious ∨ v = Political ∨ v = Racist ∨
        v = Sexist ∨ v = Explicit := by
      simpa [flagVocab] using h
    simp [Flags.Add, hc]
  · have hc : ¬(v = Nsfw ∨ v = Religious ∨ v = Political ∨ v = Racist ∨
        v = Sexist ∨ v = Explicit) := by
      simpa [flagVocab] using h
    simp [Flags.Add, hc]
  · have hc : v = Any ∨ v = Misc ∨ v = Programming ∨ v = Dark ∨ v = Pun ∨
        v = Spooky ∨ v = Christmas := by
      simpa [catVocab] using h
    simp [Categories.Add, hc]
  · have hc : ¬(v = Any ∨ v = Misc ∨ v = Programming ∨ v = Dark ∨ v = Pun ∨
        v = Spooky ∨ v = Christmas) := by
      simpa [catVocab] using h
    simp [Categories.Add, hc]
  · have hc : v = Single ∨ v = Twopart := by
      simpa [typeVocab] using h
    simp [JokeType.Set, hc]
  · have hc : ¬(v = Single ∨ v = Twopart) := by
      simpa [typeVocab] using h
    simp [JokeType.Set, hc]

/-- C4 witness: each setter on a valid and on an invalid token. -/
theorem c4_validated_setters_witness :
    Lang.Set "" "pt" = ("pt", none) ∧
    Lang.Set "" "invalid" = ("", some "invalid lang code: \"invalid\"") ∧
    Flags.Add [] "nsfw" = (["nsfw"], none) ∧
    Flags.Add [] "invalid" = ([], some "invalid flag: \"invalid\"") ∧
    Categories.Add [] "Dark" = (["Dark"], none) ∧
    Categories.Add [] "invalid" = ([], some "invalid category: \"invalid\"") ∧
    JokeType.Set "" "single" = ("single", none) ∧
    JokeType.Set "" "invalid" = ("", some "invalid type: \"invalid\"") :=
  ⟨(c4_validated_setters "pt" "" [] [] "").1 (by decide),
   ((c4_validated_setters "invalid" "" [] [] "").2.1 (by decide)).trans (by decide),
   ((c4_validated_setters "nsfw" "" [] [] "").2.2.1 (by decide)).trans (by decide),
   ((c4_validated_setters "invalid" "" [] [] "").2.2.2.1 (by decide)).trans (by decide),
   ((c4_validated_setters "Dark" "" [] [] "").2.2.2.2.1 (by decide)).trans (by decide),
   ((c4_validated_setters "invalid" "" [] [] "").2.2.2.2.2.1 (by decide)).trans (by decide),
   (c4_validated_setters "single" "" [] [] "").2.2.2.2.2.2.1 (by decide),
   ((c4_validated_setters "invalid" "" [] [] "").2.2.2.2.2.2.2 (by decide)).trans (by decide)⟩

/-! ## C9 -/

/-- C9 counterexample: the blacklist collection is not duplicate-free — with
`nsfw` already present, `Add("nsfw")` succeeds (no error) and the token then
occurs twice. -/
theorem c9_counterexample :
    Nsfw ∈ ([Nsfw] : Flags) ∧
    (Flags.Add [Nsfw] "nsfw").2 = none ∧
    List.count Nsfw (Flags.Add [Nsfw] "nsfw").1 = 2 := by decide

/-- C9 (amended): the blacklist and category collections are ordered lists of
validated tokens; a successful Add appends the token unconditionally, even
when it is already present, so duplicates can occur. -/
theorem c9_amended_add_appends (fs : Flags) (cs : Categories) (v : Str) :
    (v ∈ flagVocab → Flags.Add fs v = (fs ++ [v], none)) ∧
    (v ∈ catVocab → Categories.Add cs v = (cs ++ [v], none)) := by
  constructor
  · intro h
    have hc : v = Nsfw ∨ v = Religious ∨ v = Political ∨ v = Racist ∨
        v = Sexist ∨ v = Explicit := by
      simpa [flagVocab] using h
    simp [Flags.Add, hc]
  · intro h
    have hc : v = Any ∨ v = Misc ∨ v = Programming ∨ v = Dark ∨ v = Pun ∨
        v = Spooky ∨ v = Christmas := by
      simpa [catVocab] using h
    simp [Categories.Add, hc]

/-- C9 (amended) witness: adding an already-present valid token appends a
duplicate in both collections. -/
theorem c9_amended_add_appends_witness :
    Flags.Add [Nsfw] "nsfw" = ([Nsfw, Nsfw], none) ∧
    Categories.Add [Dark] "Dark" = ([Dark, Dark], none) :=
  ⟨((c9_amended_add_appends [Nsfw] [] "nsfw").1 (by decide)).trans (by decide),
   ((c9_amended_add_appends [] [Dark] "Dark").2 (by decide)).trans (by decide)⟩

/-! ## C3 -/

theorem mem_map_fst_ite (c : Prop) [Decidable c] (k k' v : String) :
    k ∈ (List.map Prod.fst (if c then [(k', v)] else [])) ↔ c ∧ k = k' := by
  by_cases h : c <;> simp [h]

/-- C3: `Query()` contains a key exactly for each field that is set (amount
iff Amount > 0, blacklistFlags iff Blacklist non-empty, contains iff
Contains non-empty, idRange iff ID non-nil, lang iff Lang non-empty,
safe-mode iff Safe, type iff Type non-empty), and a Request with no fields
set yields an empty mapping. -/
theorem c3_query_keys (j : Request) :
    (KeyAmount ∈ (Request.Query j).map Prod.fst ↔ j.amount > 0) ∧
    (KeyBlacklist ∈ (Request.Query j).map Prod.fst ↔ j.blacklist ≠ []) ∧
    (KeyContains ∈ (Request.Query j).map Prod.fst ↔ j.contains ≠ "") ∧
    (KeyIDRange ∈ (Request.Query j).map Prod.fst ↔ j.id ≠ none) ∧
    (KeyLang ∈ (Request.Query j).map Prod.fst ↔ j.lang ≠ "") ∧
    (KeySafe ∈ (Request.Query j).map Prod.fst ↔ j.safe = true) ∧
    (KeyType ∈ (Request.Query j).map Prod.fst ↔ j.ty ≠ "") ∧
    Request.Query emptyRequest = [] := by
  rcases hid : j.id with _ | r <;>
    refine ⟨?_, ?_, ?_, ?_, ?_, ?_, ?_, by decide⟩ <;>
      simp [Request.Query, hid, mem_map_fst_ite, KeyAmount, KeyBlacklist,
        KeyContains, KeyIDRange, KeyLang, KeySafe, KeyType, List.length_pos]

/-! ## C7 -/

theorem lookup_ite_append (c : Prop) [Decidable c] (k k' v : String)
    (t : List (String × String)) (hk : k ≠ k') :
    List.lookup k ((if c then [(k', v)] else []) ++ t) = List.lookup k t := by
  have hbe : (k == k') = false := by simpa using hk
  by_cases h : c <;> simp [h, List.lookup, hbe]

theorem lookup_cons_ne (k k' v : String) (t : List (String × String))
    (hk : k ≠ k') :
    List.lookup k ((k', v) :: t) = List.lookup k t := by
  have hbe : (k == k') = false := by simpa using hk
  simp [List.lookup, hbe]

/-- C7: set fields render as follows in the query mapping: Amount as its
decimal string, Safe=true as the empty string under safe-mode, a non-empty
blacklist as its tokens comma-joined in insertion order (and the category
list renders comma-joined the same way). -/
theorem c7_query_values (j : Request) :
    (j.amount > 0 →
      List.lookup KeyAmount (Request.Query j) = some (toString j.amount)) ∧
    (j.safe = true →
      List.lookup KeySafe (Request.Query j) = some "") ∧
    (j.blacklist ≠ [] →
      List.lookup KeyBlacklist (Request.Query j)
        = some (String.intercalate "," j.blacklist)) ∧
    (∀ cs : Categories, Categories.String cs = String.intercalate "," cs) := by
  refine ⟨fun h => ?_, fun h => ?_, fun h => ?_, categoriesString_eq_intercalate⟩
  · simp [Request.Query, h, List.lookup]
  · rcases hid : j.id with _ | r
    · simp only [Request.Query, hid, List.append_assoc, List.nil_append]
      rw [lookup_ite_append _ KeySafe KeyAmount _ _ (by decide),
        lookup_ite_append _ KeySafe KeyBlacklist _ _ (by decide),
        lookup_ite_append _ KeySafe KeyContains _ _ (by decide),
        lookup_ite_append _ KeySafe KeyLang _ _ (by decide)]
      simp [h, List.lookup]
    · simp only [Request.Query, hid, List.append_assoc, List.cons_append,
        List.nil_append]
      rw [lookup_ite_append _ KeySafe KeyAmount _ _ (by decide),
        lookup_ite_append _ KeySafe KeyBlacklist _ _ (by decide),
        lookup_ite_append _ KeySafe KeyContains _ _ (by decide),
        lookup_cons_ne KeySafe KeyIDRange _ _ (by decide),
        lookup_ite_append _ KeySafe KeyLang _ _ (by decide)]
      simp [h, List.lookup]
  · have hlen : 0 < j.blacklist.length := List.length_pos.mpr h
    simp only [Request.Query, List.append_assoc]
    rw [lookup_ite_append _ KeyBlacklist KeyAmount _ _ (by decide)]
    simp [hlen, List.lookup, flagsString_eq_intercalate]

/-- C7 witness: Amount=5 renders "5", Safe=true renders the empty string,
Blacklist{nsfw,political,explicit} renders "nsfw,political,explicit". -/
theorem c7_query_values_witness :
    List.lookup KeyAmount (Request.Query
      { emptyRequest with
        amount := 5
        safe := true
        blacklist := [Nsfw, Political, Explicit] }) = some "5" ∧
    List.lookup KeySafe (Request.Query
      { emptyRequest with
        amount := 5
        safe := true
        blacklist := [Nsfw, Political, Explicit] }) = some "" ∧
    List.lookup KeyBlacklist (Request.Query
      { emptyRequest with
        amount := 5
        safe := true
        blacklist := [Nsfw, Political, Explicit] })
      = some "nsfw,political,explicit" := by
  refine ⟨?_, ?_, ?_⟩
  · exact ((c7_query_values _).1 (by decide)).trans (by decide)
  · exact (c7_query_values _).2.1 rfl
  · exact ((c7_query_values _).2.2.1 (by decide)).trans (by decide)

/-! ## C5 -/

/-- C5: a JSON object with no `error` key parses to no jokes and the
missing-discriminator error (`response has no "error" property`). -/
theorem c5_missing_error_key (kvs : List (String × JVal))
    (h : lookupLast kvs "error" = none) :
    ParseResponse (JVal.obj kvs) = ([], some RespError.missingErrorProp) := by
  simp [ParseResponse, toRawMap, h]

/-- C5 witness: the empty JSON object. -/
theorem c5_missing_error_key_witness :
    ParseResponse (JVal.obj []) = ([], some RespError.missingErrorProp) :=
  c5_missing_error_key [] rfl

/-! ## C1 -/

/-- C1: when the `error` field decodes to false, ParseResponse returns the
jokes found under the `jokes` key of the list-wrapper decode when an
`amount` key is present, and a one-element list of the payload decoded as a
single Joke when not. -/
theorem c1_success_dispatch (kvs : List (String × JVal)) (ev : JVal)
    (h1 : lookupLast kvs "error" = some ev)
    (h2 : decodeBool ev false = Except.ok false) :
    (∀ w : Jokes, hasKey kvs "amount" = true →
      decodeJokes zeroJokes (JVal.obj kvs) = Except.ok w →
      ParseResponse (JVal.obj kvs) = (w.jokes, none)) ∧
    (∀ jk : Joke, hasKey kvs "amount" = false →
      decodeJoke zeroJoke (JVal.obj kvs) = Except.ok jk →
      ParseResponse (JVal.obj kvs) = ([jk], none)) := by
  constructor
  · intro w hA hw
    simp [ParseResponse, toRawMap, h1, h2, hA, hw]
  · intro jk hA hw
    simp [ParseResponse, toRawMap, h1, h2, hA, hw]

/-- C1 witness: a two-joke list payload and a single-joke payload. -/
theorem c1_success_dispatch_witness :
    ParseResponse (JVal.obj [("error", JVal.bool false), ("amount", JVal.num 2),
        ("jokes", JVal.arr [JVal.obj [("joke", JVal.str "a")],
          JVal.obj [("setup", JVal.str "s"), ("delivery", JVal.str "d")]])])
      = ([{ zeroJoke with joke := "a" },
          { zeroJoke with setup := "s", delivery := "d" }], none) ∧
    ParseResponse (JVal.obj [("error", JVal.bool false), ("joke", JVal.str "x"),
        ("type", JVal.str "single")])
      = ([{ zeroJoke with joke := "x", ty := "single" }], none) := by
  constructor
  · exact (c1_success_dispatch
      [("error", JVal.bool false), ("amount", JVal.num 2),
        ("jokes", JVal.arr [JVal.obj [("joke", JVal.str "a")],
          JVal.obj [("setup", JVal.str "s"), ("delivery", JVal.str "d")]])]
      (JVal.bool false) rfl rfl).1
      ⟨[{ zeroJoke with joke := "a" },
        { zeroJoke with setup := "s", delivery := "d" }]⟩ rfl rfl
  · exact (c1_success_dispatch
      [("error", JVal.bool false), ("joke", JVal.str "x"),
        ("type", JVal.str "single")]
      (JVal.bool false) rfl rfl).2
      { zeroJoke with joke := "x", ty := "single" } rfl rfl

/-! ## C2 -/

/-- C2: when the `error` field decodes to true and the payload decodes as an
ErrorResponse, ParseResponse returns no jokes and that ErrorResponse as the
typed error, whose string form is `message: additionalInfo`. -/
theorem c2_error_response (kvs : List (String × JVal)) (ev : JVal)
    (er : ErrorResponse)
    (h1 : lookupLast kvs "error" = some ev)
    (h2 : decodeBool ev false = Except.ok true)
    (h3 : decodeErrorResponse zeroErrorResponse (JVal.obj kvs) = Except.ok er) :
    ParseResponse (JVal.obj kvs) = ([], some (RespError.api er)) ∧
    ErrorResponse.Error er = er.message ++ ": " ++ er.info := by
  refine ⟨?_, rfl⟩
  simp [ParseResponse, toRawMap, h1, h2, h3]

/-- C2 witness: `{"error":true,"message":"m","additionalInfo":"i"}` yields
the typed error whose string form is `m: i`. -/
theorem c2_error_response_witness :
    ParseResponse (JVal.obj [("error", JVal.bool true),
        ("message", JVal.str "m"), ("additionalInfo", JVal.str "i")])
      = ([], some (RespError.api
          { zeroErrorResponse with message := "m", info := "i" })) ∧
    ErrorResponse.Error { zeroErrorResponse with message := "m", info := "i" }
      = "m: i" := by
  have h := c2_error_response
    [("error", JVal.bool true), ("message", JVal.str "m"),
      ("additionalInfo", JVal.str "i")]
    (JVal.bool true)
    { zeroErrorResponse with message := "m", info := "i" } rfl rfl rfl
  exact ⟨h.1, h.2.trans (by decide)⟩

/-! ## C10 -/

/-- C10: when the `error` field decodes to true but the payload fails to
decode as an ErrorResponse, ParseResponse returns the underlying decode
error (not an APIError) and no jokes. -/
theorem c10_error_decode_failure (kvs : List (String × JVal)) (ev : JVal)
    (d : DecodeError)
    (h1 : lookupLast kvs "error" = some ev)
    (h2 : decodeBool ev false = Except.ok true)
    (h3 : decodeErrorResponse zeroErrorResponse (JVal.obj kvs)
      = Except.error d) :
    ParseResponse (JVal.obj kvs) = ([], some (RespError.decode d)) := by
  simp [ParseResponse, toRawMap, h1, h2, h3]

/-- C10 witness: `{"error":true,"code":"x"}` — the `code` field has the
wrong JSON type, so the int decode error comes back, not an APIError. -/
theorem c10_error_decode_failure_witness :
    ParseResponse (JVal.obj [("error", JVal.bool true), ("code", JVal.str "x")])
      = ([], some (RespError.decode (DecodeError.typeMismatch "int"))) :=
  c10_error_decode_failure
    [("error", JVal.bool true), ("code", JVal.str "x")]
    (JVal.bool true) (DecodeError.typeMismatch "int") rfl rfl rfl

/-! ## C6 -/

theorem escapeList_id (p : Char → Bool) :
    ∀ l : List Char, (∀ c ∈ l, p c = false) → escapeList p l = l
  | [], _ => rfl
  | c :: cs, h => by
    have hc : p c = false := h c (by simp)
    have hrest := escapeList_id p cs (fun x hx => h x (by simp [hx]))
    simp [escapeList, hc, hrest]

theorem escapeStr_id (p : Char → Bool) (s : String)
    (h : ∀ c ∈ s.data, p c = false) : escapeStr p s = s := by
  cases s with
  | mk l => exact congrArg String.mk (escapeList_id p l h)

/-- Every character of a joinLoop result comes from one of the joined
strings or is the comma separator. -/
theorem mem_data_joinLoop :
    ∀ (s : List Str) (i c : Nat) (ch : Char),
      ch ∈ (joinLoop s i c).data → (∃ x ∈ s, ch ∈ x.data) ∨ ch = ','
  | [], _, _, _, h => by exact absurd h (by intro hh; exact nomatch hh)
  | f :: rest, i, c, ch, h => by
    simp only [joinLoop] at h
    rw [String.data_append, String.data_append] at h
    rcases List.mem_append.mp h with h1 | h2
    · rcases List.mem_append.mp h1 with ha | hb
      · exact Or.inl ⟨f, by simp, ha⟩
      · by_cases hic : i < c - 1
        · rw [if_pos hic] at hb
          right
          simpa using hb
        · rw [if_neg hic] at hb
          exact absurd hb (by intro hh; exact nomatch hh)
    · rcases mem_data_joinLoop rest (i + 1) c ch h2 with ⟨x, hx, hcx⟩ | hc
      · exact Or.inl ⟨x, by simp [hx], hcx⟩
      · exact Or.inr hc

theorem catVocab_unescaped :
    ∀ x ∈ catVocab, ∀ ch ∈ x.data, shouldEscapePath ch = false := by decide

theorem joke_prefix_unescaped :
    ∀ ch ∈ ("joke/" : String).data, shouldEscapePath ch = false := by decide

theorem pathNeedsSlash_joke (s : String) :
    pathNeedsSlash ("joke/" ++ s) = true := by
  have hd : ("joke/" ++ s).data = 'j' :: ('o' :: 'k' :: 'e' :: '/' :: s.data) := by
    rw [String.data_append]
    rfl
  simp [pathNeedsSlash, hd]

/-- C6: for a Request whose categories all come from the category
vocabulary, URL() is the fixed base `https://v2.jokeapi.dev`, the path
`joke/` followed by the comma-joined category list (with an empty category
list replaced by the single category "Any"), then the encoded query string
when there is one. -/
theorem c6_url (j : Request) (h : ∀ c ∈ j.category, c ∈ catVocab) :
    Request.URL j =
      "https://v2.jokeapi.dev/joke/" ++
      String.intercalate "," (if j.category = [] then [Any] else j.category) ++
      (if encodeQuery (Request.Query j) = "" then ""
       else "?" ++ encodeQuery (Request.Query j)) := by
  have hcat : ∀ x ∈ (if j.category.length = 0 then [Any] else j.category),
      x ∈ catVocab := by
    by_cases hc : j.category.length = 0
    · rw [if_pos hc]
      intro x hx
      rw [List.mem_singleton] at hx
      subst hx
      decide
    · rw [if_neg hc]
      exact h
  have hchars : ∀ ch ∈ ("joke/" ++ Categories.String
      (if j.category.length = 0 then [Any] else j.category)).data,
      shouldEscapePath ch = false := by
    intro ch hch
    rw [String.data_append] at hch
    rcases List.mem_append.mp hch with h1 | h2
    · exact joke_prefix_unescaped ch h1
    · rcases mem_data_joinLoop _ 0 _ ch h2 with ⟨x, hx, hcx⟩ | hc
      · exact catVocab_unescaped x (hcat x hx) ch hcx
      · subst hc
        decide
  have hesc := escapeStr_id shouldEscapePath _ hchars
  have hslash := pathNeedsSlash_joke
    (Categories.String (if j.category.length = 0 then [Any] else j.category))
  have hempty : ("" : String).data = [] := rfl
  simp only [Request.URL, GoURL.String, BaseURL, pathEscape]
  rw [if_pos (⟨by decide, hslash⟩ :
    ("v2.jokeapi.dev" : String) ≠ "" ∧ pathNeedsSlash ("joke/" ++
      Categories.String (if j.category.length = 0 then [Any] else j.category))
      = true)]
  rw [hesc, categoriesString_eq_intercalate]
  simp only [List.length_eq_zero]
  by_cases hq : encodeQuery (Request.Query j) = "" <;>
    simp only [hq, if_pos, if_neg, ite_true, ite_false, ne_eq,
      not_true_eq_false, not_false_eq_true] <;>
    · apply String.ext
      simp only [String.data_append, List.append_assoc, hempty,
        List.append_nil, List.nil_append]
      rfl

/-- C6 witness: Category{Dark,Pun}, all other fields unset. -/
theorem c6_url_witness :
    Request.URL { emptyRequest with category := [Dark, Pun] }
      = "https://v2.jokeapi.dev/joke/Dark,Pun" :=
  (c6_url { emptyRequest with category := [Dark, Pun] } (by decide)).trans
    (by decide)

end Jokes
